import Mathlib

/-!
Verification of the Morpheus HMD driver
(`src/psmoveservice/MorpheusHMD/MorpheusHMD.cpp`).

The development shallowly embeds the driver: byte pairs and packets are
records of natural numbers, `float` values are modelled as rationals,
machine `int` counters as `Int`, HID handles as booleans ("non-null"),
and the state-history vector as a `List`.  The poll loop is a
fuel-bounded recursion over an explicit list of transport read results,
instrumented to also return the list of entries it appended (its trace).
-/

namespace Morpheus

/-- Tracking colors of `eCommonTrackingColorID` (shared device enum). -/
inductive eCommonTrackingColorID where
  | Magenta
  | Cyan
  | Yellow
  | Red
  | Green
  | Blue
deriving DecidableEq, Repr

/-- Integer 3-vector with the `i`/`j`/`k` fields of `CommonDeviceVector`. -/
structure IntVector3 where
  i : Int
  j : Int
  k : Int
deriving DecidableEq, Repr

/-- Float 3-vector (floats modelled as rationals). -/
structure RatVector3 where
  i : ℚ
  j : ℚ
  k : ℚ
deriving DecidableEq, Repr

/-- Two transmitted bytes of one sensor axis: `b0` is sent first (the low
byte), `b1` second (the high byte); each is an `unsigned char`. -/
structure BytePair where
  b0 : Nat
  b1 : Nat
deriving DecidableEq, Repr

/-- `static_cast<short>((data[1] << 8) | data[0])`: little-endian
reassembly of the two bytes followed by reinterpretation as a signed
16-bit value.  The `% 256` embeds the `unsigned char` type of the bytes. -/
def decodeInt16 (p : BytePair) : Int :=
  let u : Nat := (p.b1 % 256) * 256 + (p.b0 % 256)
  if u < 32768 then (u : Int) else (u : Int) - 65536

/-- `MorpheusRawSensorFrame`: six byte pairs, one per IMU axis. -/
structure MorpheusRawSensorFrame where
  accel_x : BytePair
  accel_y : BytePair
  accel_z : BytePair
  gyro_x : BytePair
  gyro_y : BytePair
  gyro_z : BytePair
deriving DecidableEq, Repr

/-- The zero-filled raw frame (`memset` to 0). -/
def MorpheusRawSensorFrame.Reset : MorpheusRawSensorFrame :=
  { accel_x := ⟨0, 0⟩, accel_y := ⟨0, 0⟩, accel_z := ⟨0, 0⟩
    gyro_x := ⟨0, 0⟩, gyro_y := ⟨0, 0⟩, gyro_z := ⟨0, 0⟩ }

/-- `MorpheusDataInput`: the fixed-layout input packet.  Only the fields
the driver reads are carried; the two IMU sub-frames are what the decoder
consumes. -/
structure MorpheusDataInput where
  buttons : Nat
  volume : Nat
  headsetFlags : Nat
  frame : Nat
  imu_frame_0 : MorpheusRawSensorFrame
  imu_frame_1 : MorpheusRawSensorFrame
deriving DecidableEq, Repr

/-- `MorpheusDataInput::Reset`: `memset` the packet to zero. -/
def MorpheusDataInput.Reset : MorpheusDataInput :=
  { buttons := 0, volume := 0, headsetFlags := 0, frame := 0
    imu_frame_0 := MorpheusRawSensorFrame.Reset
    imu_frame_1 := MorpheusRawSensorFrame.Reset }

/-- `MorpheusHMDConfig`: the versioned configuration record. -/
structure MorpheusHMDConfig where
  version : Int
  is_valid : Bool
  prediction_time : ℚ
  max_poll_failure_count : Int
  accelerometer_gain : ℚ
  accelerometer_variance : ℚ
  gyro_gain : ℚ
  gyro_variance : ℚ
  gyro_drift : ℚ
  min_orientation_quality_screen_area : ℚ
  max_orientation_quality_screen_area : ℚ
  min_position_quality_screen_area : ℚ
  max_position_quality_screen_area : ℚ
  max_velocity : ℚ
  identity_gravity_direction : RatVector3
  tracking_color_id : eCommonTrackingColorID
deriving DecidableEq, Repr

/-- `MorpheusHMDConfig::CONFIG_VERSION = 1`. -/
def MorpheusHMDConfig.CONFIG_VERSION : Int := 1

/-- The property tree handed to `ptree2config`, restricted to the keys the
driver reads: each key is present (`some`) or absent (`none`);
`pt.get<T>(key, default)` is modelled as `Option.getD`. -/
structure ConfigPTree where
  version : Option Int
  is_valid : Option Bool
  prediction_time : Option ℚ
  max_poll_failure_count : Option Int
  accel_gain : Option ℚ
  accel_variance : Option ℚ
  gyro_gain : Option ℚ
  gyro_variance : Option ℚ
  gyro_drift : Option ℚ
  min_orientation_quality_screen_area : Option ℚ
  max_orientation_quality_screen_area : Option ℚ
  min_position_quality_screen_area : Option ℚ
  max_position_quality_screen_area : Option ℚ
  max_velocity : Option ℚ
  gravity_x : Option ℚ
  gravity_y : Option ℚ
  gravity_z : Option ℚ
  tracking_color : Option eCommonTrackingColorID
deriving DecidableEq, Repr

/-- Modelled from the spec: `readTrackingColor` lives in the shared config
base class, outside the provided sources; per the configuration contract it
reads the tracking color key with the caller's compiled-in default as the
field fallback. -/
def readTrackingColor (defaultColor : eCommonTrackingColorID) (pt : ConfigPTree) :
    eCommonTrackingColorID :=
  pt.tracking_color.getD defaultColor

/-- `MorpheusHMDConfig::ptree2config`: `cfg` is the in-memory record
holding the constructor defaults; the returned boolean reports whether the
version-mismatch warning was logged.  The `version` member is assigned
before the version test, in both branches, exactly as in the source. -/
def ptree2config (cfg : MorpheusHMDConfig) (pt : ConfigPTree) :
    MorpheusHMDConfig × Bool :=
  let version := pt.version.getD 0
  if version = MorpheusHMDConfig.CONFIG_VERSION then
    ({ version := version
       is_valid := pt.is_valid.getD false
       prediction_time := pt.prediction_time.getD 0
       max_poll_failure_count := pt.max_poll_failure_count.getD 100
       accelerometer_gain := pt.accel_gain.getD cfg.accelerometer_gain
       accelerometer_variance := pt.accel_variance.getD cfg.accelerometer_variance
       gyro_gain := pt.gyro_gain.getD cfg.gyro_gain
       gyro_variance := pt.gyro_variance.getD cfg.gyro_variance
       gyro_drift := pt.gyro_drift.getD cfg.gyro_drift
       min_orientation_quality_screen_area :=
         pt.min_orientation_quality_screen_area.getD cfg.min_orientation_quality_screen_area
       max_orientation_quality_screen_area :=
         pt.max_orientation_quality_screen_area.getD cfg.max_orientation_quality_screen_area
       min_position_quality_screen_area :=
         pt.min_position_quality_screen_area.getD cfg.min_position_quality_screen_area
       max_position_quality_screen_area :=
         pt.max_position_quality_screen_area.getD cfg.max_position_quality_screen_area
       max_velocity := pt.max_velocity.getD cfg.max_velocity
       identity_gravity_direction :=
         ⟨pt.gravity_x.getD cfg.identity_gravity_direction.i,
          pt.gravity_y.getD cfg.identity_gravity_direction.j,
          pt.gravity_z.getD cfg.identity_gravity_direction.k⟩
       tracking_color_id := readTrackingColor cfg.tracking_color_id pt }, false)
  else
    ({ cfg with version := version }, true)

/-- `MorpheusHMDSensorFrame`: raw and calibrated samples of one IMU
sub-frame. -/
structure MorpheusHMDSensorFrame where
  RawAccel : IntVector3
  RawGyro : IntVector3
  CalibratedAccel : RatVector3
  CalibratedGyro : RatVector3
deriving DecidableEq, Repr

/-- `MorpheusHMDSensorFrame::parse_data_input`: decode each axis from its
byte pair and scale by the class gain. -/
def MorpheusHMDSensorFrame.parse_data_input (config : MorpheusHMDConfig)
    (data_input : MorpheusRawSensorFrame) : MorpheusHMDSensorFrame :=
  let raw_accelX := decodeInt16 data_input.accel_x
  let raw_accelY := decodeInt16 data_input.accel_y
  let raw_accelZ := decodeInt16 data_input.accel_z
  let raw_gyroX := decodeInt16 data_input.gyro_x
  let raw_gyroY := decodeInt16 data_input.gyro_y
  let raw_gyroZ := decodeInt16 data_input.gyro_z
  { RawAccel := ⟨raw_accelX, raw_accelY, raw_accelZ⟩
    RawGyro := ⟨raw_gyroX, raw_gyroY, raw_gyroZ⟩
    CalibratedAccel :=
      ⟨(raw_accelX : ℚ) * config.accelerometer_gain,
       (raw_accelY : ℚ) * config.accelerometer_gain,
       (raw_accelZ : ℚ) * config.accelerometer_gain⟩
    CalibratedGyro :=
      ⟨(raw_gyroX : ℚ) * config.gyro_gain,
       (raw_gyroY : ℚ) * config.gyro_gain,
       (raw_gyroZ : ℚ) * config.gyro_gain⟩ }

/-- `MorpheusHMDState`: one decoded polling result. -/
structure MorpheusHMDState where
  PollSequenceNumber : Int
  SensorFrames : MorpheusHMDSensorFrame × MorpheusHMDSensorFrame
deriving DecidableEq, Repr

/-- `MorpheusHMDState::parse_data_input`: decode both IMU sub-frames. -/
def MorpheusHMDState.parse_data_input (config : MorpheusHMDConfig)
    (data_input : MorpheusDataInput) :
    MorpheusHMDSensorFrame × MorpheusHMDSensorFrame :=
  (MorpheusHMDSensorFrame.parse_data_input config data_input.imu_frame_0,
   MorpheusHMDSensorFrame.parse_data_input config data_input.imu_frame_1)

/-- `MorpheusHIDDetails`: paths and the two channel handles; a handle is
modelled by whether it is non-null. -/
structure MorpheusHIDDetails where
  device_identifier : String
  sensor_device_path : String
  sensor_device_handle : Bool
  command_device_path : String
  command_device_handle : Bool
deriving DecidableEq, Repr

/-- `MorpheusHIDDetails::Reset`. -/
def MorpheusHIDDetails.Reset : MorpheusHIDDetails :=
  { device_identifier := ""
    sensor_device_path := ""
    sensor_device_handle := false
    command_device_path := ""
    command_device_handle := false }

/-- The driver instance `MorpheusHMD`. -/
structure MorpheusHMD where
  cfg : MorpheusHMDConfig
  HIDDetails : MorpheusHIDDetails
  NextPollSequenceNumber : Int
  InData : MorpheusDataInput
  HMDStates : List MorpheusHMDState
deriving DecidableEq, Repr

/-- The `MorpheusHMD` constructor: details reset, sequence counter 0,
zeroed input buffer, empty state history. -/
def MorpheusHMD.construct (cfg : MorpheusHMDConfig) : MorpheusHMD :=
  { cfg := cfg
    HIDDetails := MorpheusHIDDetails.Reset
    NextPollSequenceNumber := 0
    InData := MorpheusDataInput.Reset
    HMDStates := [] }

/-- `MorpheusHMD::getIsOpen`: both channel handles non-null. -/
def MorpheusHMD.getIsOpen (hmd : MorpheusHMD) : Bool :=
  hmd.HIDDetails.sensor_device_handle && hmd.HIDDetails.command_device_handle

/-- `MorpheusHMD::close`: when either handle is non-null, close the open
handles and reset the HID details and the input buffer; otherwise log and
ignore the request.  The state history is not touched. -/
def MorpheusHMD.close (hmd : MorpheusHMD) : MorpheusHMD :=
  if hmd.HIDDetails.sensor_device_handle || hmd.HIDDetails.command_device_handle then
    { hmd with HIDDetails := MorpheusHIDDetails.Reset, InData := MorpheusDataInput.Reset }
  else
    hmd

/-- The enumerator data `MorpheusHMD::open` consumes: the device path and
the two interface paths (`get_interface_path` at the sensor and command
interface indices). -/
structure HMDEnumeratorInfo where
  path : String
  sensor_interface_path : String
  command_interface_path : String
deriving DecidableEq, Repr

/-- The driver state right after `open` has stored the enumerator path,
resolved the two interface paths, and recorded the outcome of the two
`hid_open_path` calls. -/
def MorpheusHMD.withOpenedHandles (hmd : MorpheusHMD) (enumerator : HMDEnumeratorInfo)
    (sensor_ok command_ok : Bool) : MorpheusHMD :=
  { hmd with HIDDetails :=
    { device_identifier := enumerator.path
      sensor_device_path := enumerator.sensor_interface_path
      sensor_device_handle := sensor_ok
      command_device_path := enumerator.command_interface_path
      command_device_handle := command_ok } }

/-- `MorpheusHMD::open(enumerator)`.  The outcomes of the two
`hid_open_path` calls are inputs (`sensor_ok`, `command_ok`).  Already-open
devices return success unchanged; when either channel fails to open, the
driver logs an error and calls `close()` before returning failure. -/
def MorpheusHMD.openDev (hmd : MorpheusHMD) (enumerator : HMDEnumeratorInfo)
    (sensor_ok command_ok : Bool) : Bool × MorpheusHMD :=
  if hmd.getIsOpen then
    (true, hmd)
  else if (hmd.withOpenedHandles enumerator sensor_ok command_ok).getIsOpen then
    (true, { hmd.withOpenedHandles enumerator sensor_ok command_ok with
             NextPollSequenceNumber := 0 })
  else
    (false, (hmd.withOpenedHandles enumerator sensor_ok command_ok).close)

/-- `MORPHEUS_HMD_STATE_BUFFER_MAX`. -/
def MORPHEUS_HMD_STATE_BUFFER_MAX : Nat := 4

/-- The history-append step of the poll loop: when the queue has reached
the buffer max, erase the oldest `size - MORPHEUS_HMD_STATE_BUFFER_MAX`
entries, then push the new entry at the back. -/
def appendEntry (states : List MorpheusHMDState) (e : MorpheusHMDState) :
    List MorpheusHMDState :=
  let states' :=
    if MORPHEUS_HMD_STATE_BUFFER_MAX ≤ states.length then
      states.drop (states.length - MORPHEUS_HMD_STATE_BUFFER_MAX)
    else
      states
  states' ++ [e]

/-- One result of `hid_read` on the sensor channel: an error (`res < 0`),
no data (`res == 0`), or one packet (`res > 0`, the packet now filling
`InData`). -/
inductive ReadResult where
  | hidError
  | noData
  | packet (data : MorpheusDataInput)
deriving DecidableEq, Repr

/-- Pop the next read result; an exhausted list means the non-blocking
read finds nothing buffered (`res == 0`). -/
def nextRead : List ReadResult → ReadResult × List ReadResult
  | [] => (ReadResult.noData, [])
  | r :: rs => (r, rs)

/-- The body of a successful read iteration: stamp the next sequence
number, decode the packet, append to the history.  Returns the new entry
and the updated driver state. -/
def stepPacket (hmd : MorpheusHMD) (data : MorpheusDataInput) :
    MorpheusHMDState × MorpheusHMD :=
  let newState : MorpheusHMDState :=
    { PollSequenceNumber := hmd.NextPollSequenceNumber
      SensorFrames := MorpheusHMDState.parse_data_input hmd.cfg data }
  (newState,
   { hmd with
     NextPollSequenceNumber := hmd.NextPollSequenceNumber + 1
     InData := data
     HMDStates := appendEntry hmd.HMDStates newState })

/-- `IHMDInterface::ePollResult`. -/
inductive ePollResult where
  | Failure
  | SuccessNoData
  | SuccessNewData
deriving DecidableEq, Repr

/-- `k_max_iterations = 32`. -/
def k_max_iterations : Nat := 32

/-- The bounded drain loop of `MorpheusHMD::poll`: `fuel` is the number of
iterations left, `iteration` the current index, `res` the classification
carried so far (returned when the iteration bound is exhausted).  The
third component of the result is the trace of entries appended by the
remaining iterations. -/
def pollGo : Nat → Nat → List ReadResult → ePollResult → MorpheusHMD →
    ePollResult × MorpheusHMD × List MorpheusHMDState
  | 0, _, _, res, hmd => (res, hmd, [])
  | fuel + 1, iteration, reads, _res, hmd =>
    let (r, rest) := nextRead reads
    match r with
    | ReadResult.noData =>
      ((if iteration = 0 then ePollResult.SuccessNoData else ePollResult.SuccessNewData),
       hmd, [])
    | ReadResult.hidError => (ePollResult.Failure, hmd, [])
    | ReadResult.packet data =>
      let (e, hmd') := stepPacket hmd data
      let out := pollGo fuel (iteration + 1) rest ePollResult.SuccessNewData hmd'
      (out.1, out.2.1, e :: out.2.2)

/-- `MorpheusHMD::poll`, instrumented with the trace of appended entries:
a closed device performs no transport access and fails; an open device
runs the drain loop for at most `k_max_iterations` iterations starting
from the `Failure` classification. -/
def MorpheusHMD.pollT (hmd : MorpheusHMD) (reads : List ReadResult) :
    ePollResult × MorpheusHMD × List MorpheusHMDState :=
  if hmd.getIsOpen then
    pollGo k_max_iterations 0 reads ePollResult.Failure hmd
  else
    (ePollResult.Failure, hmd, [])

/-- `std::vector::at`: the in-range element, or `none` for the
`std::out_of_range` exception (a negative index converts to a huge
`size_type` and is likewise out of range). -/
def vectorAt {α : Type} (xs : List α) (idx : Int) : Option α :=
  if h : 0 ≤ idx ∧ idx.toNat < xs.length then some (xs.get ⟨idx.toNat, h.2⟩) else none

/-- The exception escaping `getState` when `vector::at` is given an
out-of-range index. -/
inductive StdException where
  | out_of_range
deriving DecidableEq, Repr

/-- `MorpheusHMD::getState(lookBack)`: guard `lookBack < queueSize`, then
`&HMDStates.at(queueSize - lookBack - 1)`, else `nullptr` (`none`). -/
def MorpheusHMD.getState (hmd : MorpheusHMD) (lookBack : Int) :
    Except StdException (Option MorpheusHMDState) :=
  let queueSize : Int := (hmd.HMDStates.length : Int)
  if lookBack < queueSize then
    match vectorAt hmd.HMDStates (queueSize - lookBack - 1) with
    | some st => Except.ok (some st)
    | none => Except.error StdException.out_of_range
  else
    Except.ok none

/-- `MorpheusHMD::getTrackingColorID`: writes `Blue` to the out parameter
and returns `true`, for every driver state. -/
def MorpheusHMD.getTrackingColorID (_hmd : MorpheusHMD) :
    eCommonTrackingColorID × Bool :=
  (eCommonTrackingColorID.Blue, true)

/-- `MorpheusHMD::getMaxPollFailureCount`. -/
def MorpheusHMD.getMaxPollFailureCount (hmd : MorpheusHMD) : Int :=
  hmd.cfg.max_poll_failure_count

/-- One external operation on the driver, as invoked by the owning device
manager. -/
inductive DeviceOp where
  | doOpen (enumerator : HMDEnumeratorInfo) (sensor_ok command_ok : Bool)
  | doClose
  | doPoll (reads : List ReadResult)
deriving DecidableEq, Repr

/-- Apply one external operation. -/
def runOp (hmd : MorpheusHMD) : DeviceOp → MorpheusHMD
  | DeviceOp.doOpen enumerator s c => (hmd.openDev enumerator s c).2
  | DeviceOp.doClose => hmd.close
  | DeviceOp.doPoll reads => (hmd.pollT reads).2.1

/-- Apply a sequence of external operations. -/
def runOps (hmd : MorpheusHMD) (ops : List DeviceOp) : MorpheusHMD :=
  ops.foldl runOp hmd

/-- A sequence of poll invocations, with the concatenated trace of all
entries appended across them. -/
def runPollsT (hmd : MorpheusHMD) :
    List (List ReadResult) → MorpheusHMD × List MorpheusHMDState
  | [] => (hmd, [])
  | reads :: rest =>
    let out := hmd.pollT reads
    let next := runPollsT out.2.1 rest
    (next.1, out.2.2 ++ next.2)

/-- Apply a whole list of packets through the read-iteration body,
returning the final driver state and the list of entries created. -/
def runPackets (hmd : MorpheusHMD) :
    List MorpheusDataInput → MorpheusHMD × List MorpheusHMDState
  | [] => (hmd, [])
  | p :: ps =>
    let s := stepPacket hmd p
    let next := runPackets s.2 ps
    (next.1, s.1 :: next.2)

/-- The last `n` elements of a list. -/
def keepLast {α : Type} (n : Nat) (l : List α) : List α :=
  l.drop (l.length - n)

/-- The arithmetic sequence `start, start+1, …` of length `k`. -/
def seqList (start : Int) (k : Nat) : List Int :=
  (List.range k).map (fun n => start + Int.ofNat n)

/-! ### Shared concrete inputs -/

/-- A concrete configuration (constructor-style defaults). -/
def sampleCfg : MorpheusHMDConfig :=
  { version := 1
    is_valid := true
    prediction_time := 0
    max_poll_failure_count := 100
    accelerometer_gain := 1
    accelerometer_variance := 2
    gyro_gain := 1
    gyro_variance := 2
    gyro_drift := 0
    min_orientation_quality_screen_area := 0
    max_orientation_quality_screen_area := 1
    min_position_quality_screen_area := 0
    max_position_quality_screen_area := 1
    max_velocity := 1
    identity_gravity_direction := ⟨0, 1, 0⟩
    tracking_color_id := eCommonTrackingColorID.Magenta }

/-- A concrete enumerator entry. -/
def sampleEnum : HMDEnumeratorInfo :=
  { path := "usb-0"
    sensor_interface_path := "usb-0-if4"
    command_interface_path := "usb-0-if5" }

/-- A concrete open driver with empty history. -/
def sampleOpenHMD : MorpheusHMD :=
  { cfg := sampleCfg
    HIDDetails :=
      { device_identifier := "usb-0"
        sensor_device_path := "usb-0-if4"
        sensor_device_handle := true
        command_device_path := "usb-0-if5"
        command_device_handle := true }
    NextPollSequenceNumber := 0
    InData := MorpheusDataInput.Reset
    HMDStates := [] }

/-- A concrete decoded state entry. -/
def sampleEntry : MorpheusHMDState :=
  { PollSequenceNumber := 0
    SensorFrames := MorpheusHMDState.parse_data_input sampleCfg MorpheusDataInput.Reset }

/-- A concrete open driver holding one decoded entry. -/
def sampleOpenHMD1 : MorpheusHMD :=
  { sampleOpenHMD with HMDStates := [sampleEntry] }

/-- A concrete document with a stale version and a present gain field. -/
def samplePTreeStale : ConfigPTree :=
  { version := some 0
    is_valid := some true
    prediction_time := none
    max_poll_failure_count := none
    accel_gain := some 7
    accel_variance := none
    gyro_gain := none
    gyro_variance := none
    gyro_drift := none
    min_orientation_quality_screen_area := none
    max_orientation_quality_screen_area := none
    min_position_quality_screen_area := none
    max_position_quality_screen_area := none
    max_velocity := none
    gravity_x := none
    gravity_y := none
    gravity_z := none
    tracking_color := some eCommonTrackingColorID.Red }

/-- The same document with the matching version. -/
def samplePTreeCurrent : ConfigPTree :=
  { samplePTreeStale with version := some 1 }

/-! ### C4: frame decoding and calibration -/

/-- **C4.** Every axis decodes as the signed 16-bit reinterpretation of
`(high << 8) | low` with the low byte transmitted first: `decodeInt16`
agrees with the two's-complement characterization
`((hi * 256 + lo + 2^15) mod 2^16) - 2^15`; the byte pair `[0x34, 0x12]`
decodes to `4660`; each raw axis of a parsed sensor frame is the decode of
its byte pair, and each calibrated axis is the raw value times the
configured class gain, e.g. `4660 * g` on the example pair. -/
theorem C4_decode_calibration :
    decodeInt16 ⟨0x34, 0x12⟩ = 4660 ∧
    (∀ p : BytePair,
      decodeInt16 p =
        (((p.b1 % 256 : Nat) : Int) * 256 + ((p.b0 % 256 : Nat) : Int) + 32768) % 65536
          - 32768) ∧
    (∀ (config : MorpheusHMDConfig) (data_input : MorpheusRawSensorFrame),
      (MorpheusHMDSensorFrame.parse_data_input config data_input).RawAccel =
        ⟨decodeInt16 data_input.accel_x, decodeInt16 data_input.accel_y,
         decodeInt16 data_input.accel_z⟩ ∧
      (MorpheusHMDSensorFrame.parse_data_input config data_input).RawGyro =
        ⟨decodeInt16 data_input.gyro_x, decodeInt16 data_input.gyro_y,
         decodeInt16 data_input.gyro_z⟩ ∧
      (MorpheusHMDSensorFrame.parse_data_input config data_input).CalibratedAccel =
        ⟨(decodeInt16 data_input.accel_x : ℚ) * config.accelerometer_gain,
         (decodeInt16 data_input.accel_y : ℚ) * config.accelerometer_gain,
         (decodeInt16 data_input.accel_z : ℚ) * config.accelerometer_gain⟩ ∧
      (MorpheusHMDSensorFrame.parse_data_input config data_input).CalibratedGyro =
        ⟨(decodeInt16 data_input.gyro_x : ℚ) * config.gyro_gain,
         (decodeInt16 data_input.gyro_y : ℚ) * config.gyro_gain,
         (decodeInt16 data_input.gyro_z : ℚ) * config.gyro_gain⟩) ∧
    (∀ (config : MorpheusHMDConfig) (data_input : MorpheusRawSensorFrame),
      (MorpheusHMDSensorFrame.parse_data_input config
          { data_input with accel_x := ⟨0x34, 0x12⟩ }).CalibratedAccel.i =
        4660 * config.accelerometer_gain) := by
  refine ⟨by decide, ?_, ?_, ?_⟩
  · intro p
    have h0 : p.b0 % 256 < 256 := Nat.mod_lt _ (by omega)
    have h1 : p.b1 % 256 < 256 := Nat.mod_lt _ (by omega)
    by_cases h : (p.b1 % 256) * 256 + (p.b0 % 256) < 32768 <;>
      simp only [decodeInt16, h, if_true, if_false, reduceIte] <;> omega
  · intro config data_input
    exact ⟨rfl, rfl, rfl, rfl⟩
  · intro config data_input
    show ((decodeInt16 ⟨0x34, 0x12⟩ : ℚ)) * config.accelerometer_gain = _
    norm_num [show decodeInt16 ⟨0x34, 0x12⟩ = 4660 from by decide]

/-! ### C8: fixed tracking color -/

/-- **C8.** For every driver state, and regardless of the configured
`tracking_color_id`, `getTrackingColorID` writes `Blue` to its output
parameter and returns `true`. -/
theorem C8_tracking_color :
    ∀ (hmd : MorpheusHMD) (c : eCommonTrackingColorID),
      hmd.getTrackingColorID = (eCommonTrackingColorID.Blue, true) ∧
      MorpheusHMD.getTrackingColorID
          { hmd with cfg := { hmd.cfg with tracking_color_id := c } } =
        hmd.getTrackingColorID :=
  fun _ _ => ⟨rfl, rfl⟩

/-! ### C3: close -/

/-- **C3 counterexample.** An open driver holding one decoded entry: after
`close()` the device is closed, yet the state history still holds the
entry — `close()` does not clear the decoded state history. -/
theorem C3_counterexample :
    sampleOpenHMD1.getIsOpen = true ∧
    sampleOpenHMD1.close.getIsOpen = false ∧
    sampleOpenHMD1.close.HMDStates ≠ [] := by
  refine ⟨rfl, rfl, ?_⟩
  intro h
  simp [MorpheusHMD.close, sampleOpenHMD1, sampleOpenHMD, MorpheusHMD.getIsOpen] at h

/-- **C3 (amended).** `close()` on an open device closes the channel
handles and resets the transport state (HID details and input buffer),
`close()` is idempotent and safe on an already-closed device — but the
decoded state history is left untouched, not cleared. -/
theorem C3_amended_close (hmd : MorpheusHMD) :
    hmd.close.getIsOpen = false ∧
    hmd.close.HMDStates = hmd.HMDStates ∧
    hmd.close.close = hmd.close ∧
    (hmd.getIsOpen = true →
      hmd.close = { hmd with
        HIDDetails := MorpheusHIDDetails.Reset
        InData := MorpheusDataInput.Reset }) ∧
    (hmd.HIDDetails.sensor_device_handle = false →
      hmd.HIDDetails.command_device_handle = false → hmd.close = hmd) := by
  unfold MorpheusHMD.close MorpheusHMD.getIsOpen
  cases hs : hmd.HIDDetails.sensor_device_handle <;>
    cases hc : hmd.HIDDetails.command_device_handle <;>
      simp [MorpheusHIDDetails.Reset, hs, hc]

/-- Witness for C3: the amended facts evaluated on the concrete open
driver with one history entry. -/
theorem C3_amended_close_witness :
    sampleOpenHMD1.close.getIsOpen = false ∧
    sampleOpenHMD1.close.HMDStates = sampleOpenHMD1.HMDStates ∧
    sampleOpenHMD1.close = { sampleOpenHMD1 with
      HIDDetails := MorpheusHIDDetails.Reset
      InData := MorpheusDataInput.Reset } :=
  ⟨(C3_amended_close sampleOpenHMD1).1, (C3_amended_close sampleOpenHMD1).2.1,
   (C3_amended_close sampleOpenHMD1).2.2.2.1 rfl⟩

/-! ### getState -/

/-- For a non-negative lookback, `getState` returns (without exception)
the element at that offset from the back of the history. -/
theorem getState_nonneg (hmd : MorpheusHMD) (lookBack : Int) (h : 0 ≤ lookBack) :
    hmd.getState lookBack = Except.ok (hmd.HMDStates.reverse[lookBack.toNat]?) := by
  unfold MorpheusHMD.getState
  by_cases hlt : lookBack < (hmd.HMDStates.length : Int)
  · rw [if_pos hlt]
    have h0 : 0 ≤ (hmd.HMDStates.length : Int) - lookBack - 1 := by omega
    have hidx : ((hmd.HMDStates.length : Int) - lookBack - 1).toNat < hmd.HMDStates.length := by
      omega
    unfold vectorAt
    rw [dif_pos ⟨h0, hidx⟩]
    have hl : lookBack.toNat < hmd.HMDStates.length := by omega
    rw [List.getElem?_reverse hl]
    have harith : hmd.HMDStates.length - 1 - lookBack.toNat =
        ((hmd.HMDStates.length : Int) - lookBack - 1).toNat := by omega
    rw [harith, List.getElem?_eq_getElem hidx]
    rfl
  · rw [if_neg hlt]
    have : hmd.HMDStates.reverse.length ≤ lookBack.toNat := by
      rw [List.length_reverse]; omega
    rw [List.getElem?_eq_none this]

/-- **C6.** For every non-negative lookback: `getState` returns the entry
at that offset counted backward from the most recent entry (0 = newest) —
the element of the reversed history at the lookback index — yielding an
entry exactly when the lookback is below the current history length, and a
null indication when it is at or above it. -/
theorem C6_getState_lookback (hmd : MorpheusHMD) (lookBack : Int) (h : 0 ≤ lookBack) :
    hmd.getState lookBack = Except.ok (hmd.HMDStates.reverse[lookBack.toNat]?) ∧
    (lookBack < (hmd.HMDStates.length : Int) →
      ∃ st, hmd.getState lookBack = Except.ok (some st)) ∧
    ((hmd.HMDStates.length : Int) ≤ lookBack → hmd.getState lookBack = Except.ok none) := by
  refine ⟨getState_nonneg hmd lookBack h, ?_, ?_⟩
  · intro hlt
    rw [getState_nonneg hmd lookBack h]
    have hl : lookBack.toNat < hmd.HMDStates.reverse.length := by
      rw [List.length_reverse]; omega
    exact ⟨hmd.HMDStates.reverse[lookBack.toNat], by rw [List.getElem?_eq_getElem hl]⟩
  · intro hge
    rw [getState_nonneg hmd lookBack h]
    have : hmd.HMDStates.reverse.length ≤ lookBack.toNat := by
      rw [List.length_reverse]; omega
    rw [List.getElem?_eq_none this]

/-- Witness for C6: on the concrete one-entry history, lookback 0 yields
the entry and lookback 3 yields the null indication. -/
theorem C6_getState_lookback_witness :
    sampleOpenHMD1.getState 0 = Except.ok (some sampleEntry) ∧
    sampleOpenHMD1.getState 3 = Except.ok none := by
  constructor
  · rw [(C6_getState_lookback sampleOpenHMD1 0 (by decide)).1]; rfl
  · exact (C6_getState_lookback sampleOpenHMD1 3 (by decide)).2.2 (by decide)

/-- **C10.** For every negative lookback on a non-empty history the
upper-bound guard `lookBack < queueSize` still passes, the computed index
`queueSize - lookBack - 1` is at or beyond the history length, and the
`vector::at` element access escapes with `std::out_of_range`: `getState`
is exception-safe only under the precondition `lookback ≥ 0`. -/
theorem C10_negative_lookback (hmd : MorpheusHMD) (lookBack : Int)
    (hneg : lookBack < 0) (hne : 0 < hmd.HMDStates.length) :
    lookBack < (hmd.HMDStates.length : Int) ∧
    (hmd.HMDStates.length : Int) ≤ (hmd.HMDStates.length : Int) - lookBack - 1 ∧
    hmd.getState lookBack = Except.error StdException.out_of_range := by
  refine ⟨by omega, by omega, ?_⟩
  unfold MorpheusHMD.getState
  rw [if_pos (by omega : lookBack < (hmd.HMDStates.length : Int))]
  unfold vectorAt
  rw [dif_neg (by omega :
    ¬(0 ≤ (hmd.HMDStates.length : Int) - lookBack - 1 ∧
      ((hmd.HMDStates.length : Int) - lookBack - 1).toNat < hmd.HMDStates.length))]

/-- Witness for C10: lookback `-1` on the concrete one-entry history
throws. -/
theorem C10_negative_lookback_witness :
    sampleOpenHMD1.getState (-1) = Except.error StdException.out_of_range :=
  (C10_negative_lookback sampleOpenHMD1 (-1) (by decide) (by decide)).2.2

/-! ### C7: configuration loading -/

/-- **C7.** Loading a document whose version (default 0 when absent)
differs from `CONFIG_VERSION = 1` keeps every field at its in-memory
default, records the read version, and surfaces the warning rather than
an error; when the version matches, every field is read individually with
its compiled-in default as that field's fallback, so a partially-present
document degrades field-by-field. -/
theorem C7_config_fallback (cfg : MorpheusHMDConfig) (pt : ConfigPTree) :
    (pt.version.getD 0 ≠ MorpheusHMDConfig.CONFIG_VERSION →
      ptree2config cfg pt = ({ cfg with version := pt.version.getD 0 }, true)) ∧
    (pt.version.getD 0 = MorpheusHMDConfig.CONFIG_VERSION →
      (ptree2config cfg pt).2 = false ∧
      (ptree2config cfg pt).1.version = MorpheusHMDConfig.CONFIG_VERSION ∧
      (ptree2config cfg pt).1.is_valid = pt.is_valid.getD false ∧
      (ptree2config cfg pt).1.prediction_time = pt.prediction_time.getD 0 ∧
      (ptree2config cfg pt).1.max_poll_failure_count = pt.max_poll_failure_count.getD 100 ∧
      (ptree2config cfg pt).1.accelerometer_gain =
        pt.accel_gain.getD cfg.accelerometer_gain ∧
      (ptree2config cfg pt).1.accelerometer_variance =
        pt.accel_variance.getD cfg.accelerometer_variance ∧
      (ptree2config cfg pt).1.gyro_gain = pt.gyro_gain.getD cfg.gyro_gain ∧
      (ptree2config cfg pt).1.gyro_variance = pt.gyro_variance.getD cfg.gyro_variance ∧
      (ptree2config cfg pt).1.gyro_drift = pt.gyro_drift.getD cfg.gyro_drift ∧
      (ptree2config cfg pt).1.min_orientation_quality_screen_area =
        pt.min_orientation_quality_screen_area.getD cfg.min_orientation_quality_screen_area ∧
      (ptree2config cfg pt).1.max_orientation_quality_screen_area =
        pt.max_orientation_quality_screen_area.getD cfg.max_orientation_quality_screen_area ∧
      (ptree2config cfg pt).1.min_position_quality_screen_area =
        pt.min_position_quality_screen_area.getD cfg.min_position_quality_screen_area ∧
      (ptree2config cfg pt).1.max_position_quality_screen_area =
        pt.max_position_quality_screen_area.getD cfg.max_position_quality_screen_area ∧
      (ptree2config cfg pt).1.max_velocity = pt.max_velocity.getD cfg.max_velocity ∧
      (ptree2config cfg pt).1.identity_gravity_direction =
        ⟨pt.gravity_x.getD cfg.identity_gravity_direction.i,
         pt.gravity_y.getD cfg.identity_gravity_direction.j,
         pt.gravity_z.getD cfg.identity_gravity_direction.k⟩ ∧
      (ptree2config cfg pt).1.tracking_color_id =
        pt.tracking_color.getD cfg.tracking_color_id) := by
  constructor
  · intro hne
    unfold ptree2config
    rw [if_neg hne]
  · intro heq
    unfold ptree2config
    rw [if_pos heq]
    exact ⟨rfl, heq, rfl, rfl, rfl, rfl, rfl, rfl, rfl, rfl, rfl, rfl, rfl, rfl, rfl,
      rfl, rfl⟩

/-- Witness for C7: the stale-version document is discarded wholesale
with a warning (the present gain `7` is ignored), while the same document
with the matching version degrades field-by-field (the present gain is
taken, the absent gyro gain falls back to the default). -/
theorem C7_config_fallback_witness :
    ptree2config sampleCfg samplePTreeStale = ({ sampleCfg with version := 0 }, true) ∧
    (ptree2config sampleCfg samplePTreeCurrent).2 = false ∧
    (ptree2config sampleCfg samplePTreeCurrent).1.accelerometer_gain = 7 ∧
    (ptree2config sampleCfg samplePTreeCurrent).1.gyro_gain = sampleCfg.gyro_gain := by
  refine ⟨(C7_config_fallback sampleCfg samplePTreeStale).1 (by decide), ?_, ?_, ?_⟩
  · exact ((C7_config_fallback sampleCfg samplePTreeCurrent).2 (by decide)).1
  · rw [((C7_config_fallback sampleCfg samplePTreeCurrent).2 (by decide)).2.2.2.2.2.1]
    rfl
  · rw [((C7_config_fallback sampleCfg
      samplePTreeCurrent).2 (by decide)).2.2.2.2.2.2.2.1]
    rfl

/-! ### History-buffer lemmas -/

theorem length_keepLast {α : Type} (n : Nat) (l : List α) :
    (keepLast n l).length = min n l.length := by
  unfold keepLast
  rw [List.length_drop]
  omega

theorem keepLast_of_le {α : Type} {n : Nat} {l : List α} (h : l.length ≤ n) :
    keepLast n l = l := by
  unfold keepLast
  rw [Nat.sub_eq_zero_of_le h, List.drop_zero]

theorem keepLast_keepLast_append {α : Type} (n m : Nat) (l r : List α)
    (h1 : n ≤ m + r.length) (h2 : r.length ≤ n) :
    keepLast n (keepLast m l ++ r) = keepLast n (l ++ r) := by
  by_cases hm : l.length ≤ m
  · rw [keepLast_of_le hm]
  · unfold keepLast
    have hlen : (l.drop (l.length - m)).length = m := by
      rw [List.length_drop]; omega
    rw [List.length_append, List.length_append, hlen,
      List.drop_append_of_le_length
        (by rw [hlen]; omega : m + r.length - n ≤ (l.drop (l.length - m)).length),
      List.drop_append_of_le_length
        (by omega : l.length + r.length - n ≤ l.length),
      List.drop_drop]
    congr 2
    omega

theorem appendEntry_keepLast (l : List MorpheusHMDState) (e : MorpheusHMDState) :
    appendEntry l e = keepLast (min (l.length + 1) 5) (l ++ [e]) := by
  unfold appendEntry keepLast MORPHEUS_HMD_STATE_BUFFER_MAX
  by_cases h : (4 : Nat) ≤ l.length
  · rw [if_pos h, List.length_append]
    have harith : l.length + [e].length - min (l.length + 1) 5 = l.length - 4 := by
      simp only [List.length_cons, List.length_nil]
      omega
    rw [harith, List.drop_append_of_le_length (by omega : l.length - 4 ≤ l.length)]
  · rw [if_neg h, List.length_append]
    have harith : l.length + [e].length - min (l.length + 1) 5 = 0 := by
      simp only [List.length_cons, List.length_nil]
      omega
    rw [harith, List.drop_zero]

theorem foldl_appendEntry (s t : List MorpheusHMDState) (hs : s.length ≤ 5) :
    List.foldl appendEntry s t = keepLast (min (s.length + t.length) 5) (s ++ t) := by
  induction t using List.reverseRecOn with
  | nil =>
    simp only [List.foldl_nil, List.length_nil, Nat.add_zero, List.append_nil]
    exact (keepLast_of_le (by omega)).symm
  | append_singleton t' e ih =>
    rw [List.foldl_concat, ih, appendEntry_keepLast]
    have hlen : (keepLast (min (s.length + t'.length) 5) (s ++ t')).length =
        min (s.length + t'.length) 5 := by
      rw [length_keepLast, List.length_append]
      omega
    rw [hlen, keepLast_keepLast_append _ _ _ _
      (by simp only [List.length_cons, List.length_nil]; omega)
      (by simp only [List.length_cons, List.length_nil]; omega),
      ← List.append_assoc]
    have harith : min (min (s.length + t'.length) 5 + 1) 5 =
        min (s.length + (t' ++ [e]).length) 5 := by
      rw [List.length_append]
      simp only [List.length_cons, List.length_nil]
      omega
    rw [harith]

theorem foldl_appendEntry_length (s t : List MorpheusHMDState) (hs : s.length ≤ 5) :
    (List.foldl appendEntry s t).length = min (s.length + t.length) 5 := by
  rw [foldl_appendEntry s t hs, length_keepLast, List.length_append]
  omega

/-! ### Poll-loop lemmas -/

theorem pollGo_zero (iteration : Nat) (reads : List ReadResult) (res : ePollResult)
    (hmd : MorpheusHMD) : pollGo 0 iteration reads res hmd = (res, hmd, []) := rfl

theorem pollGo_succ_nil (fuel iteration : Nat) (res : ePollResult) (hmd : MorpheusHMD) :
    pollGo (fuel + 1) iteration [] res hmd =
      ((if iteration = 0 then ePollResult.SuccessNoData else ePollResult.SuccessNewData),
       hmd, []) := rfl

theorem pollGo_succ_noData (fuel iteration : Nat) (rs : List ReadResult)
    (res : ePollResult) (hmd : MorpheusHMD) :
    pollGo (fuel + 1) iteration (ReadResult.noData :: rs) res hmd =
      ((if iteration = 0 then ePollResult.SuccessNoData else ePollResult.SuccessNewData),
       hmd, []) := rfl

theorem pollGo_succ_hidError (fuel iteration : Nat) (rs : List ReadResult)
    (res : ePollResult) (hmd : MorpheusHMD) :
    pollGo (fuel + 1) iteration (ReadResult.hidError :: rs) res hmd =
      (ePollResult.Failure, hmd, []) := rfl

theorem pollGo_succ_packet (fuel iteration : Nat) (data : MorpheusDataInput)
    (rs : List ReadResult) (res : ePollResult) (hmd : MorpheusHMD) :
    pollGo (fuel + 1) iteration (ReadResult.packet data :: rs) res hmd =
      ((pollGo fuel (iteration + 1) rs ePollResult.SuccessNewData
          (stepPacket hmd data).2).1,
       (pollGo fuel (iteration + 1) rs ePollResult.SuccessNewData
          (stepPacket hmd data).2).2.1,
       (stepPacket hmd data).1 ::
         (pollGo fuel (iteration + 1) rs ePollResult.SuccessNewData
           (stepPacket hmd data).2).2.2) := rfl

/-- The states after the drain loop are the fold of the append step over
the trace of appended entries. -/
theorem pollGo_states (fuel : Nat) :
    ∀ (iteration : Nat) (reads : List ReadResult) (res : ePollResult) (hmd : MorpheusHMD),
    (pollGo fuel iteration reads res hmd).2.1.HMDStates =
      List.foldl appendEntry hmd.HMDStates (pollGo fuel iteration reads res hmd).2.2 := by
  induction fuel with
  | zero => intro iteration reads res hmd; rfl
  | succ fuel ih =>
    intro iteration reads res hmd
    cases reads with
    | nil => rfl
    | cons r rs =>
      cases r with
      | noData => rfl
      | hidError => rfl
      | packet data =>
        show (pollGo fuel (iteration + 1) rs ePollResult.SuccessNewData
            (stepPacket hmd data).2).2.1.HMDStates =
          List.foldl appendEntry hmd.HMDStates
            ((stepPacket hmd data).1 ::
              (pollGo fuel (iteration + 1) rs ePollResult.SuccessNewData
                (stepPacket hmd data).2).2.2)
        rw [List.foldl_cons]
        exact ih (iteration + 1) rs ePollResult.SuccessNewData (stepPacket hmd data).2

theorem seqList_succ (start : Int) (k : Nat) :
    seqList start (k + 1) = start :: seqList (start + 1) k := by
  unfold seqList
  rw [List.range_succ_eq_map, List.map_cons, List.map_map]
  refine congrArg₂ _ (by simp) (List.map_congr_left ?_)
  intro n _
  simp only [Function.comp_apply, Nat.succ_eq_add_one, Int.ofNat_eq_coe]
  push_cast
  ring

theorem seqList_append (k1 : Nat) :
    ∀ (start : Int) (k2 : Nat),
    seqList start (k1 + k2) = seqList start k1 ++ seqList (start + k1) k2 := by
  induction k1 with
  | zero =>
    intro start k2
    simp [seqList]
  | succ k1 ih =>
    intro start k2
    have harith : k1 + 1 + k2 = (k1 + k2) + 1 := by omega
    rw [harith, seqList_succ, ih (start + 1) k2, seqList_succ]
    simp only [List.cons_append]
    have : start + 1 + (k1 : Int) = start + ((k1 : Nat) + 1 : Nat) := by
      push_cast
      ring
    rw [this]

/-- The entries appended by the drain loop carry the consecutive sequence
numbers starting at the driver's counter, which advances by their count. -/
theorem pollGo_seq (fuel : Nat) :
    ∀ (iteration : Nat) (reads : List ReadResult) (res : ePollResult) (hmd : MorpheusHMD),
    ((pollGo fuel iteration reads res hmd).2.2).map
        (fun s => s.PollSequenceNumber) =
      seqList hmd.NextPollSequenceNumber
        (pollGo fuel iteration reads res hmd).2.2.length ∧
    (pollGo fuel iteration reads res hmd).2.1.NextPollSequenceNumber =
      hmd.NextPollSequenceNumber + (pollGo fuel iteration reads res hmd).2.2.length := by
  induction fuel with
  | zero =>
    intro iteration reads res hmd
    rw [pollGo_zero]
    exact ⟨rfl, by simp⟩
  | succ fuel ih =>
    intro iteration reads res hmd
    cases reads with
    | nil =>
      rw [pollGo_succ_nil]
      exact ⟨rfl, by simp⟩
    | cons r rs =>
      cases r with
      | noData =>
        rw [pollGo_succ_noData]
        exact ⟨rfl, by simp⟩
      | hidError =>
        rw [pollGo_succ_hidError]
        exact ⟨rfl, by simp⟩
      | packet data =>
        have ihh := ih (iteration + 1) rs ePollResult.SuccessNewData (stepPacket hmd data).2
        constructor
        · show ((stepPacket hmd data).1 ::
              (pollGo fuel (iteration + 1) rs ePollResult.SuccessNewData
                (stepPacket hmd data).2).2.2).map (fun s => s.PollSequenceNumber) =
            seqList hmd.NextPollSequenceNumber
              ((stepPacket hmd data).1 ::
                (pollGo fuel (iteration + 1) rs ePollResult.SuccessNewData
                  (stepPacket hmd data).2).2.2).length
          rw [List.map_cons, List.length_cons, seqList_succ]
          exact congrArg _ ihh.1
        · show (pollGo fuel (iteration + 1) rs ePollResult.SuccessNewData
              (stepPacket hmd data).2).2.1.NextPollSequenceNumber =
            hmd.NextPollSequenceNumber +
              (((stepPacket hmd data).1 ::
                (pollGo fuel (iteration + 1) rs ePollResult.SuccessNewData
                  (stepPacket hmd data).2).2.2).length : Nat)
          rw [ihh.2, List.length_cons]
          show hmd.NextPollSequenceNumber + 1 + _ = _
          push_cast
          ring

theorem pollT_states (hmd : MorpheusHMD) (reads : List ReadResult) :
    (hmd.pollT reads).2.1.HMDStates =
      List.foldl appendEntry hmd.HMDStates (hmd.pollT reads).2.2 := by
  unfold MorpheusHMD.pollT
  split
  · exact pollGo_states k_max_iterations 0 reads ePollResult.Failure hmd
  · rfl

theorem pollT_seq (hmd : MorpheusHMD) (reads : List ReadResult) :
    ((hmd.pollT reads).2.2).map (fun s => s.PollSequenceNumber) =
      seqList hmd.NextPollSequenceNumber (hmd.pollT reads).2.2.length ∧
    (hmd.pollT reads).2.1.NextPollSequenceNumber =
      hmd.NextPollSequenceNumber + (hmd.pollT reads).2.2.length := by
  unfold MorpheusHMD.pollT
  split
  · exact pollGo_seq k_max_iterations 0 reads ePollResult.Failure hmd
  · exact ⟨rfl, by simp only [List.length_nil, Nat.cast_zero, add_zero]⟩

theorem runPollsT_states (pss : List (List ReadResult)) :
    ∀ hmd : MorpheusHMD,
    (runPollsT hmd pss).1.HMDStates =
      List.foldl appendEntry hmd.HMDStates (runPollsT hmd pss).2 := by
  induction pss with
  | nil => intro hmd; rfl
  | cons rs rest ih =>
    intro hmd
    show (runPollsT (hmd.pollT rs).2.1 rest).1.HMDStates =
      List.foldl appendEntry hmd.HMDStates
        ((hmd.pollT rs).2.2 ++ (runPollsT (hmd.pollT rs).2.1 rest).2)
    rw [List.foldl_append, ← pollT_states]
    exact ih (hmd.pollT rs).2.1

theorem runPollsT_seq (pss : List (List ReadResult)) :
    ∀ hmd : MorpheusHMD,
    ((runPollsT hmd pss).2).map (fun s => s.PollSequenceNumber) =
      seqList hmd.NextPollSequenceNumber (runPollsT hmd pss).2.length ∧
    (runPollsT hmd pss).1.NextPollSequenceNumber =
      hmd.NextPollSequenceNumber + (runPollsT hmd pss).2.length := by
  induction pss with
  | nil =>
    intro hmd
    exact ⟨rfl, by
      show hmd.NextPollSequenceNumber =
        hmd.NextPollSequenceNumber + (([] : List MorpheusHMDState).length : Int)
      simp⟩
  | cons rs rest ih =>
    intro hmd
    have h1 := pollT_seq hmd rs
    have h2 := ih (hmd.pollT rs).2.1
    constructor
    · show ((hmd.pollT rs).2.2 ++ (runPollsT (hmd.pollT rs).2.1 rest).2).map
          (fun s => s.PollSequenceNumber) =
        seqList hmd.NextPollSequenceNumber
          ((hmd.pollT rs).2.2 ++ (runPollsT (hmd.pollT rs).2.1 rest).2).length
      rw [List.map_append, List.length_append, seqList_append, h1.1, h2.1, h1.2]
    · show (runPollsT (hmd.pollT rs).2.1 rest).1.NextPollSequenceNumber =
        hmd.NextPollSequenceNumber +
          (((hmd.pollT rs).2.2 ++ (runPollsT (hmd.pollT rs).2.1 rest).2).length : Nat)
      rw [h2.2, h1.2, List.length_append]
      push_cast
      ring

theorem runPackets_length (ps : List MorpheusDataInput) :
    ∀ hmd : MorpheusHMD, (runPackets hmd ps).2.length = ps.length := by
  induction ps with
  | nil => intro hmd; rfl
  | cons p ps ih =>
    intro hmd
    show ((stepPacket hmd p).1 :: (runPackets (stepPacket hmd p).2 ps).2).length =
      ps.length + 1
    rw [List.length_cons, ih]

/-- A run of positive reads shorter than the remaining fuel is consumed
packet by packet, leaving the loop at the shifted iteration index with the
`NewData` classification (unless the run is empty) and the created entries
prefixed to the remaining trace. -/
theorem pollGo_packets (ps : List MorpheusDataInput) :
    ∀ (rs : List ReadResult) (fuel iteration : Nat) (res : ePollResult)
      (hmd : MorpheusHMD), ps.length < fuel →
    pollGo fuel iteration (ps.map ReadResult.packet ++ rs) res hmd =
      ((pollGo (fuel - ps.length) (iteration + ps.length) rs
          (if ps.length = 0 then res else ePollResult.SuccessNewData)
          (runPackets hmd ps).1).1,
       (pollGo (fuel - ps.length) (iteration + ps.length) rs
          (if ps.length = 0 then res else ePollResult.SuccessNewData)
          (runPackets hmd ps).1).2.1,
       (runPackets hmd ps).2 ++
         (pollGo (fuel - ps.length) (iteration + ps.length) rs
           (if ps.length = 0 then res else ePollResult.SuccessNewData)
           (runPackets hmd ps).1).2.2) := by
  induction ps with
  | nil =>
    intro rs fuel iteration res hmd h
    rfl
  | cons p ps ih =>
    intro rs fuel iteration res hmd h
    cases fuel with
    | zero => exact absurd h (by omega)
    | succ f =>
      have hlt : ps.length < f := by
        have := h
        rw [List.length_cons] at this
        omega
      rw [List.map_cons, List.cons_append, pollGo_succ_packet,
        ih rs f (iteration + 1) ePollResult.SuccessNewData (stepPacket hmd p).2 hlt]
      simp only [List.length_cons, Nat.succ_sub_succ, ite_self]
      have h1 : iteration + (ps.length + 1) = iteration + 1 + ps.length := by omega
      rw [h1, if_neg (Nat.succ_ne_zero ps.length)]
      rfl

/-- When the remaining packets outnumber the fuel, the loop performs
exactly `fuel` more packet iterations and stops with `NewData`. -/
theorem pollGo_exhaust (fuel : Nat) :
    ∀ (ps : List MorpheusDataInput) (iteration : Nat) (res : ePollResult)
      (hmd : MorpheusHMD) (rs : List ReadResult), fuel ≤ ps.length →
    pollGo fuel iteration (ps.map ReadResult.packet ++ rs) res hmd =
      ((if fuel = 0 then res else ePollResult.SuccessNewData),
       (runPackets hmd (ps.take fuel)).1,
       (runPackets hmd (ps.take fuel)).2) := by
  induction fuel with
  | zero => intro ps iteration res hmd rs h; rfl
  | succ f ih =>
    intro ps iteration res hmd rs h
    cases ps with
    | nil =>
      rw [List.length_nil] at h
      exact absurd h (by omega)
    | cons p ps' =>
      have hle : f ≤ ps'.length := by
        rw [List.length_cons] at h
        omega
      rw [List.map_cons, List.cons_append, pollGo_succ_packet,
        ih ps' (iteration + 1) ePollResult.SuccessNewData (stepPacket hmd p).2 rs hle,
        ite_self, if_neg (Nat.succ_ne_zero f)]
      rfl

/-! ### C2: poll classification -/

/-- **C2.** On an open device, one `poll()` invocation over the queued
read results behaves as: a zero-byte first read yields `NoData` with no
state change; a run of `n` packets (`0 < n < 32`) ending in a zero-byte
read yields `NewData` with `n` entries decoded and appended; a run of
`n < 32` packets ending in a transport error yields `Failure` with exactly
those `n` entries appended and iteration stopping at the error (the reads
queued behind it are never touched); 32 or more queued packets are drained
for exactly `K = 32` iterations, yielding `NewData`. -/
theorem C2_poll_classification (hmd : MorpheusHMD) (hopen : hmd.getIsOpen = true)
    (ps : List MorpheusDataInput) (rest : List ReadResult) :
    hmd.pollT (ReadResult.noData :: rest) = (ePollResult.SuccessNoData, hmd, []) ∧
    (ps ≠ [] → ps.length < k_max_iterations →
      (hmd.pollT (ps.map ReadResult.packet ++ ReadResult.noData :: rest)).1 =
        ePollResult.SuccessNewData ∧
      (hmd.pollT (ps.map ReadResult.packet ++ ReadResult.noData :: rest)).2.2.length =
        ps.length) ∧
    (ps.length < k_max_iterations →
      (hmd.pollT (ps.map ReadResult.packet ++ ReadResult.hidError :: rest)).1 =
        ePollResult.Failure ∧
      (hmd.pollT (ps.map ReadResult.packet ++ ReadResult.hidError :: rest)).2.2.length =
        ps.length ∧
      hmd.pollT (ps.map ReadResult.packet ++ ReadResult.hidError :: rest) =
        hmd.pollT (ps.map ReadResult.packet ++ [ReadResult.hidError])) ∧
    (k_max_iterations ≤ ps.length →
      (hmd.pollT (ps.map ReadResult.packet ++ rest)).1 = ePollResult.SuccessNewData ∧
      (hmd.pollT (ps.map ReadResult.packet ++ rest)).2.2.length = k_max_iterations) := by
  have hP : ∀ reads, hmd.pollT reads =
      pollGo k_max_iterations 0 reads ePollResult.Failure hmd := by
    intro reads
    unfold MorpheusHMD.pollT
    rw [if_pos hopen]
  have hk : k_max_iterations = 32 := rfl
  refine ⟨?_, ?_, ?_, ?_⟩
  · rw [hP]
    rfl
  · intro hne hlen
    have hn0 : ps.length ≠ 0 := fun h0 => hne (List.eq_nil_of_length_eq_zero h0)
    obtain ⟨f, hf⟩ : ∃ f, k_max_iterations - ps.length = f + 1 :=
      ⟨k_max_iterations - ps.length - 1, by omega⟩
    rw [hP, pollGo_packets ps _ _ 0 ePollResult.Failure hmd hlen, if_neg hn0, hf,
      pollGo_succ_noData]
    have hit : 0 + ps.length ≠ 0 := by omega
    rw [if_neg hit]
    exact ⟨rfl, by rw [List.length_append, runPackets_length]; rfl⟩
  · intro hlen
    obtain ⟨f, hf⟩ : ∃ f, k_max_iterations - ps.length = f + 1 :=
      ⟨k_max_iterations - ps.length - 1, by omega⟩
    rw [hP, hP, pollGo_packets ps _ _ 0 ePollResult.Failure hmd hlen,
      pollGo_packets ps _ _ 0 ePollResult.Failure hmd hlen, hf, pollGo_succ_hidError,
      pollGo_succ_hidError]
    exact ⟨rfl, by rw [List.length_append, runPackets_length]; rfl, rfl⟩
  · intro hge
    rw [hP, pollGo_exhaust k_max_iterations ps 0 ePollResult.Failure hmd rest hge,
      if_neg (by omega : k_max_iterations ≠ 0)]
    refine ⟨rfl, ?_⟩
    rw [runPackets_length, List.length_take]
    omega

/-- Witness for C2: on the concrete open driver, a first zero-byte read
classifies as `NoData`, and one packet followed by a zero-byte read
classifies as `NewData` with one appended entry. -/
theorem C2_poll_classification_witness :
    sampleOpenHMD.pollT [ReadResult.noData] =
      (ePollResult.SuccessNoData, sampleOpenHMD, []) ∧
    (sampleOpenHMD.pollT
        ([MorpheusDataInput.Reset].map ReadResult.packet ++
          ReadResult.noData :: [])).1 = ePollResult.SuccessNewData := by
  have h := C2_poll_classification sampleOpenHMD rfl [MorpheusDataInput.Reset] []
  exact ⟨h.1, (h.2.1 (by simp) (by decide)).1⟩

/-! ### C5: sequence monotonicity -/

/-- **C5.** A successful `open()` from the closed state resets the
sequence counter to 0, and across any subsequent sequence of `poll()`
invocations the entries decoded while the device stays open carry exactly
the sequence numbers `0, 1, 2, …` in order — strictly increasing by 1
with no gaps — with the counter left at the number of decoded entries. -/
theorem C5_sequence_monotonic (hmd : MorpheusHMD) (enumerator : HMDEnumeratorInfo)
    (hclosed : hmd.getIsOpen = false) (pss : List (List ReadResult)) :
    (hmd.openDev enumerator true true).1 = true ∧
    (hmd.openDev enumerator true true).2.NextPollSequenceNumber = 0 ∧
    ((runPollsT (hmd.openDev enumerator true true).2 pss).2).map
        (fun s => s.PollSequenceNumber) =
      seqList 0 (runPollsT (hmd.openDev enumerator true true).2 pss).2.length ∧
    (runPollsT (hmd.openDev enumerator true true).2 pss).1.NextPollSequenceNumber =
      ((runPollsT (hmd.openDev enumerator true true).2 pss).2.length : Int) := by
  have h0 : (hmd.openDev enumerator true true).1 = true ∧
      (hmd.openDev enumerator true true).2.NextPollSequenceNumber = 0 := by
    unfold MorpheusHMD.openDev
    rw [hclosed]
    simp [MorpheusHMD.getIsOpen, MorpheusHMD.withOpenedHandles]
  have hseq := runPollsT_seq pss (hmd.openDev enumerator true true).2
  rw [h0.2] at hseq
  refine ⟨h0.1, h0.2, hseq.1, ?_⟩
  rw [hseq.2, zero_add]

/-- Witness for C5: opening the concrete closed driver and polling two
packets then a zero-byte read yields the sequence numbers `[0, 1]`. -/
theorem C5_sequence_monotonic_witness :
    ((MorpheusHMD.construct sampleCfg).openDev sampleEnum true true).1 = true ∧
    ((runPollsT ((MorpheusHMD.construct sampleCfg).openDev sampleEnum true true).2
        [[ReadResult.packet MorpheusDataInput.Reset,
          ReadResult.packet MorpheusDataInput.Reset, ReadResult.noData]]).2).map
      (fun s => s.PollSequenceNumber) = [0, 1] := by
  have h := C5_sequence_monotonic (MorpheusHMD.construct sampleCfg) sampleEnum rfl
    [[ReadResult.packet MorpheusDataInput.Reset,
      ReadResult.packet MorpheusDataInput.Reset, ReadResult.noData]]
  refine ⟨h.1, ?_⟩
  rw [h.2.2.1]
  rfl

/-! ### C1: bounded history -/

theorem getLast?_drop {α : Type} (l : List α) (n : Nat) (h : n < l.length) :
    (l.drop n).getLast? = l.getLast? := by
  conv_rhs => rw [← List.take_append_drop n l]
  rw [List.getLast?_append]
  obtain ⟨x, hx⟩ := Option.isSome_iff_exists.mp ((@List.getLast?_isSome α (l.drop n)).mpr (by
    intro hnil
    rw [List.drop_eq_nil_iff] at hnil
    omega))
  rw [hx]
  rfl

/-- **C1 counterexample.** Starting from the concrete open driver with
empty history, one `poll()` that reads five packets leaves the state
history at length 5, not `MORPHEUS_HMD_STATE_BUFFER_MAX = 4` as claimed:
the eviction step runs before the push, so the queue settles at
`BUFFER_MAX + 1` entries. -/
theorem C1_counterexample_buffer :
    (sampleOpenHMD.pollT
        (List.replicate 5 (ReadResult.packet MorpheusDataInput.Reset) ++
          [ReadResult.noData])).2.1.HMDStates.length = 5 ∧
    ¬(sampleOpenHMD.pollT
        (List.replicate 5 (ReadResult.packet MorpheusDataInput.Reset) ++
          [ReadResult.noData])).2.1.HMDStates.length = MORPHEUS_HMD_STATE_BUFFER_MAX := by
  constructor
  · rfl
  · intro h
    rw [show (sampleOpenHMD.pollT
        (List.replicate 5 (ReadResult.packet MorpheusDataInput.Reset) ++
          [ReadResult.noData])).2.1.HMDStates.length = 5 from rfl] at h
    exact absurd h (by decide)

/-- **C1 (amended).** For capacity `N = MORPHEUS_HMD_STATE_BUFFER_MAX = 4`:
after the poll loop has appended `M > N` entries (the trace of any
sequence of polls starting from an empty history), the state history's
length equals `N + 1 = 5` — not `N` — and it contains exactly the last
`N + 1` appended entries in insertion order, with lookback index 0 being
the most-recently appended entry. -/
theorem C1_amended_bounded_history (hmd : MorpheusHMD) (hempty : hmd.HMDStates = [])
    (pss : List (List ReadResult))
    (hM : MORPHEUS_HMD_STATE_BUFFER_MAX < (runPollsT hmd pss).2.length) :
    (runPollsT hmd pss).1.HMDStates =
      (runPollsT hmd pss).2.drop
        ((runPollsT hmd pss).2.length - (MORPHEUS_HMD_STATE_BUFFER_MAX + 1)) ∧
    (runPollsT hmd pss).1.HMDStates.length = MORPHEUS_HMD_STATE_BUFFER_MAX + 1 ∧
    (runPollsT hmd pss).1.getState 0 = Except.ok ((runPollsT hmd pss).2.getLast?) := by
  have hB : MORPHEUS_HMD_STATE_BUFFER_MAX = 4 := rfl
  have hs := runPollsT_states pss hmd
  rw [hempty] at hs
  rw [foldl_appendEntry [] _ (by simp)] at hs
  rw [List.nil_append, List.length_nil, Nat.zero_add] at hs
  have hmin : min (runPollsT hmd pss).2.length 5 = 5 := by omega
  rw [hmin] at hs
  unfold keepLast at hs
  refine ⟨by rw [hs, hB], by rw [hs, List.length_drop, hB]; omega, ?_⟩
  rw [getState_nonneg _ 0 (le_refl 0)]
  congr 1
  show ((runPollsT hmd pss).1.HMDStates.reverse)[0]? = _
  rw [← List.head?_eq_getElem?, List.head?_reverse, hs]
  exact getLast?_drop _ _ (by omega)

/-- Witness for C1: five packets into the concrete open empty-history
driver leave the five decoded entries, in order, as the whole history,
with `getState(0)` returning the last of them. -/
theorem C1_amended_bounded_history_witness :
    (runPollsT sampleOpenHMD
        [[ReadResult.packet MorpheusDataInput.Reset,
          ReadResult.packet MorpheusDataInput.Reset,
          ReadResult.packet MorpheusDataInput.Reset,
          ReadResult.packet MorpheusDataInput.Reset,
          ReadResult.packet MorpheusDataInput.Reset, ReadResult.noData]]).1.HMDStates.length =
      MORPHEUS_HMD_STATE_BUFFER_MAX + 1 :=
  (C1_amended_bounded_history sampleOpenHMD rfl
    [[ReadResult.packet MorpheusDataInput.Reset,
      ReadResult.packet MorpheusDataInput.Reset,
      ReadResult.packet MorpheusDataInput.Reset,
      ReadResult.packet MorpheusDataInput.Reset,
      ReadResult.packet MorpheusDataInput.Reset, ReadResult.noData]]
    (by decide)).2.1

/-! ### C9: history length bound -/

theorem close_states (hmd : MorpheusHMD) : hmd.close.HMDStates = hmd.HMDStates := by
  unfold MorpheusHMD.close
  split <;> rfl

theorem openDev_states (hmd : MorpheusHMD) (enumerator : HMDEnumeratorInfo)
    (sensor_ok command_ok : Bool) :
    (hmd.openDev enumerator sensor_ok command_ok).2.HMDStates = hmd.HMDStates := by
  unfold MorpheusHMD.openDev MorpheusHMD.close MorpheusHMD.withOpenedHandles
  split
  · rfl
  · split
    · rfl
    · split <;> rfl

theorem runOp_length_le (hmd : MorpheusHMD) (op : DeviceOp)
    (h : hmd.HMDStates.length ≤ 5) : (runOp hmd op).HMDStates.length ≤ 5 := by
  cases op with
  | doOpen enumerator s c =>
    show ((hmd.openDev enumerator s c).2).HMDStates.length ≤ 5
    rw [openDev_states]
    exact h
  | doClose =>
    show hmd.close.HMDStates.length ≤ 5
    rw [close_states]
    exact h
  | doPoll reads =>
    show (hmd.pollT reads).2.1.HMDStates.length ≤ 5
    rw [pollT_states, foldl_appendEntry_length _ _ h]
    omega

/-- **C9.** After any sequence of open/poll/close operations from
construction, the state history length never exceeds
`MORPHEUS_HMD_STATE_BUFFER_MAX + 1 = 5`: the eviction step erases
`size - 4` oldest entries whenever `size ≥ 4`, and only then is the one
new entry pushed. -/
theorem C9_history_length_bound :
    (∀ (cfg : MorpheusHMDConfig) (ops : List DeviceOp),
      (runOps (MorpheusHMD.construct cfg) ops).HMDStates.length ≤
        MORPHEUS_HMD_STATE_BUFFER_MAX + 1) ∧
    (∀ (s : List MorpheusHMDState) (e : MorpheusHMDState),
      MORPHEUS_HMD_STATE_BUFFER_MAX ≤ s.length →
      appendEntry s e = s.drop (s.length - MORPHEUS_HMD_STATE_BUFFER_MAX) ++ [e]) := by
  constructor
  · intro cfg ops
    suffices hinv : ∀ (ops : List DeviceOp) (hmd : MorpheusHMD),
        hmd.HMDStates.length ≤ 5 → (runOps hmd ops).HMDStates.length ≤ 5 by
      exact hinv ops (MorpheusHMD.construct cfg) (by simp [MorpheusHMD.construct])
    intro ops
    induction ops with
    | nil => intro hmd h; exact h
    | cons op ops ih =>
      intro hmd h
      exact ih (runOp hmd op) (runOp_length_le hmd op h)
  · intro s e h
    unfold appendEntry
    rw [if_pos h]

/-- Witness for C9: a constructed driver taken through open and a
five-packet poll stays within the bound, and the eviction equation holds
on a concrete four-entry queue. -/
theorem C9_history_length_bound_witness :
    (runOps (MorpheusHMD.construct sampleCfg)
        [DeviceOp.doOpen sampleEnum true true,
         DeviceOp.doPoll
           (List.replicate 5 (ReadResult.packet MorpheusDataInput.Reset) ++
             [ReadResult.noData])]).HMDStates.length ≤
      MORPHEUS_HMD_STATE_BUFFER_MAX + 1 ∧
    appendEntry (List.replicate 4 sampleEntry) sampleEntry =
      (List.replicate 4 sampleEntry).drop
          ((List.replicate 4 sampleEntry).length - MORPHEUS_HMD_STATE_BUFFER_MAX) ++
        [sampleEntry] :=
  ⟨C9_history_length_bound.1 sampleCfg _,
   C9_history_length_bound.2 (List.replicate 4 sampleEntry) sampleEntry (by
     rw [List.length_replicate]
     decide)⟩

end Morpheus
